import Mathlib

/-!
Verification development for the TabGenius browser extension.

The JavaScript source is embedded shallowly: every function modelled here is a
pure Lean function; browser-API calls (tab queries, moves, grouping, storage)
are passed in as explicit environment values (`Except` for calls that can
reject, functions from tab ids for per-tab analysis outcomes), and the
mutable `this.previousState` field of `TabStateManager` is threaded as an
explicit `Option Snapshot` value.  String primitives of JavaScript
(`includes`, `startsWith`, `toLowerCase`, `trim`, `split`, `replace`) are
re-implemented over `List Char` so that every definition evaluates by kernel
reduction.
-/

namespace TabGenius

/-- Model of `needle` being a prefix of `haystack`, on character lists
(JavaScript `String.prototype.startsWith` semantics). -/
def listStartsWith : List Char → List Char → Bool
  | [], _ => true
  | _ :: _, [] => false
  | a :: as, b :: bs => a == b && listStartsWith as bs

/-- Model of substring containment on character lists
(JavaScript `String.prototype.includes` semantics: the empty needle is
contained in every string). -/
def listContainsSub (pat : List Char) : List Char → Bool
  | [] => pat.isEmpty
  | c :: rest => listStartsWith pat (c :: rest) || listContainsSub pat rest

/-- Model of JavaScript `s.includes(pat)`. -/
def strContains (s pat : String) : Bool :=
  listContainsSub pat.data s.data

/-- Model of JavaScript `s.startsWith(pre)`. -/
def strStartsWith (s pre : String) : Bool :=
  listStartsWith pre.data s.data

/-- Model of JavaScript `s.toLowerCase()` (per-character lowercasing; the
ASCII range, the only one exercised by the repository's keyword and category
strings, coincides with the JavaScript locale-independent mapping). -/
def lowerStr (s : String) : String :=
  ⟨s.data.map Char.toLower⟩

/-- Whitespace test used by the models of `trim` and `split` on the
repository's ASCII data. -/
def isWsChar (c : Char) : Bool :=
  c == ' ' || c == '\t' || c == '\n' || c == '\r'

/-- Model of JavaScript `s.trim()` (drops leading and trailing whitespace). -/
def trimStr (s : String) : String :=
  ⟨((s.data.dropWhile isWsChar).reverse.dropWhile isWsChar).reverse⟩

/-- Accumulating splitter for the model of `s.split(/\s+/)` on a trimmed
string: returns the maximal runs of non-whitespace characters. -/
def splitWordsAux (cur : List Char) : List Char → List (List Char)
  | [] => if cur.isEmpty then [] else [cur.reverse]
  | c :: rest =>
    if isWsChar c then
      if cur.isEmpty then splitWordsAux [] rest
      else cur.reverse :: splitWordsAux [] rest
    else splitWordsAux (c :: cur) rest

/-- Model of JavaScript `s.split(/\s+/)` for a string already trimmed of
surrounding whitespace: the empty string yields `[""]` (as in JavaScript),
any other trimmed string yields its whitespace-separated tokens. -/
def splitOnWs (s : String) : List String :=
  if s.data.isEmpty then [""] else (splitWordsAux [] s.data).map (⟨·⟩)

/-- Boolean lexicographic comparison of character lists by code point.  This
models the comparator `a.localeCompare(b) ≤ 0`; on the lowercased ASCII keys
the sorter feeds it, default-locale collation agrees with code-point order. -/
def lexLe : List Char → List Char → Bool
  | [], _ => true
  | _ :: _, [] => false
  | a :: as, b :: bs =>
    if a.toNat < b.toNat then true
    else if b.toNat < a.toNat then false
    else lexLe as bs

/-- UTF-16 code units of one character, as JavaScript `split('')` together
with `charCodeAt(0)` exposes them (a supplementary-plane character
contributes its surrogate pair). -/
def utf16CodeUnits (c : Char) : List Nat :=
  if c.toNat < 65536 then [c.toNat]
  else [55296 + (c.toNat - 65536) / 1024, 56320 + (c.toNat - 65536) % 1024]

/-- Model of removing the first occurrence of `pat` from a character list
(JavaScript `s.replace(pat, '')` with a string pattern replaces only the
first occurrence). -/
def removeFirstSub (pat : List Char) : List Char → List Char
  | [] => []
  | c :: rest =>
    if listStartsWith pat (c :: rest) then (c :: rest).drop pat.length
    else c :: removeFirstSub pat rest

/- ### Data model -/

/-- Live browser tab, as the extension reads it back from `chrome.tabs.query`
(the fields the core consumes: `id`, `index`, `url`, `title`, `pinned`,
`groupId`, `status`; the sentinel `chrome.tabGroups.TAB_GROUP_ID_NONE` is the
integer −1). -/
structure Tab where
  id : Nat
  index : Nat
  url : String
  title : String
  pinned : Bool
  groupId : Int
  status : String
deriving DecidableEq, Repr

/-- Per-tab record stored inside a snapshot by
`TabStateManager.saveCurrentState` (src/src/js/modules/tabStateManager.js). -/
structure SnapTab where
  id : Nat
  index : Nat
  url : String
  title : String
  groupId : Int
deriving DecidableEq, Repr

/-- Title and colour recorded for one tab group inside a snapshot. -/
structure GroupInfo where
  title : String
  color : String
deriving DecidableEq, Repr

/-- Tab group as returned by `chrome.tabGroups.query`. -/
structure TabGroup where
  id : Int
  title : String
  color : String
deriving DecidableEq, Repr

/-- Snapshot captured by `TabStateManager.saveCurrentState`
(src/src/js/modules/tabStateManager.js, lines 40–51). -/
structure Snapshot where
  timestamp : Nat
  tabs : List SnapTab
  groups : List (Int × GroupInfo)
deriving DecidableEq, Repr

/-- Projection of a live tab to the record stored in a snapshot
(tabStateManager.js, lines 43–49). -/
def snapOfTab (t : Tab) : SnapTab :=
  { id := t.id, index := t.index, url := t.url, title := t.title, groupId := t.groupId }

/-- Snapshot built by `saveCurrentState` from the two queries it performs. -/
def mkSnapshot (now : Nat) (tabs : List Tab) (groups : List (Int × GroupInfo)) : Snapshot :=
  { timestamp := now, tabs := tabs.map snapOfTab, groups := groups }

/- ### TabStateManager -/

/-- Embedding of `TabStateManager.saveCurrentState`
(src/src/js/modules/tabStateManager.js, lines 15–67).  `tabsQ` is the outcome
of `this.getAllTabs()` and `groupsQ` the outcome of the `chrome.tabGroups.query`
promise; a rejection of either is caught by the surrounding `try`/`catch`,
which returns `false` and leaves `this.previousState` untouched.  On success
the snapshot unconditionally overwrites the previous one and `true` is
returned. -/
def saveCurrentState (prev : Option Snapshot) (now : Nat)
    (tabsQ : Except String (List Tab))
    (groupsQ : Except String (List (Int × GroupInfo))) :
    Option Snapshot × Bool :=
  match tabsQ with
  | .error _ => (prev, false)
  | .ok tabs =>
    match groupsQ with
    | .error _ => (prev, false)
    | .ok groups => (some (mkSnapshot now tabs groups), true)

/-- Embedding of `TabStateManager.canUndo` (tabStateManager.js, lines 73–75). -/
def canUndo (prev : Option Snapshot) : Bool :=
  prev.isSome

/-- Environment for one call of `restorePreviousState`: the outcome of its
`getAllTabs()` query and of `ungroupAllTabs()` (whose internal failures are
rethrown).  Individual `moveTabToIndex`, `createTabGroup` and
`updateTabGroup` failures are caught inside the source's loops and never
affect the returned flag or the stored state, so they need no environment. -/
structure RestoreEnv where
  tabsQ : Except String (List Tab)
  ungroupQ : Except String Unit
deriving Repr

/-- Embedding of `TabStateManager.restorePreviousState`
(src/src/js/modules/tabStateManager.js, lines 81–160), tracking the stored
snapshot and the returned boolean.  With no snapshot it returns `false`
immediately; a rejected tab query or ungroup call reaches the outer `catch`,
returning `false` with the snapshot still held; an empty set of still-live
snapshot tabs returns `false` with the snapshot still held (lines 96–99); only
the completed path clears `this.previousState` and returns `true`
(lines 152–155). -/
def restorePreviousState (prev : Option Snapshot) (env : RestoreEnv) :
    Option Snapshot × Bool :=
  match prev with
  | none => (none, false)
  | some st =>
    match env.tabsQ with
    | .error _ => (some st, false)
    | .ok currentTabs =>
      let currentTabIds := currentTabs.map Tab.id
      let validTabs := st.tabs.filter (fun t => currentTabIds.contains t.id)
      if validTabs.length = 0 then (some st, false)
      else
        match env.ungroupQ with
        | .error _ => (some st, false)
        | .ok _ => (none, true)

/-- One store operation, with the environment its browser calls see. -/
inductive StoreOp where
  | save (now : Nat) (tabsQ : Except String (List Tab))
      (groupsQ : Except String (List (Int × GroupInfo)))
  | restore (env : RestoreEnv)

/-- Run a sequence of snapshot-store operations against the single
`previousState` slot. -/
def runStoreOps (prev : Option Snapshot) : List StoreOp → Option Snapshot
  | [] => prev
  | .save now tq gq :: rest => runStoreOps (saveCurrentState prev now tq gq).1 rest
  | .restore env :: rest => runStoreOps (restorePreviousState prev env).1 rest

/-- Number of snapshots the store holds. -/
def retainedCount (prev : Option Snapshot) : Nat :=
  match prev with
  | none => 0
  | some _ => 1

/- ### Keyword classifier (background.js, `simulateAICategory`) -/

/-- One rule of the keyword classifier: a keyword set and the label returned
when one of the keywords occurs in the input. -/
structure ClassifierRule where
  keywords : List String
  category : String
deriving DecidableEq, Repr

/-- The fixed, ordered rule list of `simulateAICategory`
(src/src/js/background.js, lines 538–561). -/
def classifierRules : List ClassifierRule :=
  [ ⟨["news", "article", "politics", "world"], "News"⟩,
    ⟨["shop", "price", "buy", "cart", "product"], "Shopping"⟩,
    ⟨["video", "watch", "stream", "movie", "episode"], "Media"⟩,
    ⟨["learn", "course", "education", "tutorial"], "Education"⟩,
    ⟨["social", "profile", "friend", "network"], "Social"⟩,
    ⟨["tech", "software", "programming", "code", "developer"], "Tech"⟩,
    ⟨["game", "play", "gaming"], "Games"⟩,
    ⟨["finance", "money", "bank", "invest"], "Finance"⟩,
    ⟨["travel", "hotel", "flight", "vacation"], "Travel"⟩,
    ⟨["food", "recipe", "restaurant", "cook"], "Food"⟩,
    ⟨["health", "medical", "fitness", "doctor"], "Health"⟩,
    ⟨["sports", "team", "player", "match", "league"], "Sports"⟩,
    ⟨["leadership", "management", "leader", "team lead"], "Leadership"⟩,
    ⟨["learning", "study", "training", "skill"], "Learning"⟩,
    ⟨["research", "study", "paper", "journal", "analysis"], "Research"⟩,
    ⟨["career", "job", "resume", "interview", "employment"], "Career"⟩,
    ⟨["network", "connect", "professional", "linkedin"], "Networking"⟩,
    ⟨["analytics", "data", "metrics", "dashboard", "report"], "Analytics"⟩,
    ⟨["marketing", "campaign", "promotion", "advertise"], "Marketing"⟩,
    ⟨["design", "ui", "ux", "graphic", "creative"], "Design"⟩,
    ⟨["document", "manual", "guide", "instruction"], "Documentation"⟩,
    ⟨["communication", "chat", "message", "email"], "Communication"⟩ ]

/-- Whether one rule fires on the (already lowercased) input
(background.js, line 564: `item.keywords.some(keyword => contentLower.includes(keyword))`). -/
def ruleMatches (contentLower : String) (r : ClassifierRule) : Bool :=
  r.keywords.any (fun k => strContains contentLower k)

/-- The `for`/early-`return` loop of `simulateAICategory`
(background.js, lines 563–570): the first matching rule's label, else "Misc". -/
def firstMatchCategory (contentLower : String) : List ClassifierRule → String
  | [] => "Misc"
  | r :: rest =>
    if ruleMatches contentLower r then r.category else firstMatchCategory contentLower rest

/-- Embedding of `simulateAICategory` (src/src/js/background.js,
lines 533–571). -/
def simulateAICategory (content : String) : String :=
  firstMatchCategory (lowerStr content) classifierRules

/- ### Category label formatter (background.js, `formatCategory`) -/

/-- Quote stripping of `formatCategory`
(background.js, line 863: `categoryText.replace(/["']/g, '')` removes every
single and double quote). -/
def removeQuotes (s : String) : String :=
  ⟨s.data.filter (fun c => !(c == '"' || c == '\''))⟩

/-- Title-casing of one token (background.js, line 868:
`word.charAt(0).toUpperCase() + word.slice(1).toLowerCase()`). -/
def titleCaseWord (w : String) : String :=
  match w.data with
  | [] => ""
  | c :: rest => ⟨Char.toUpper c :: rest.map Char.toLower⟩

/-- The normalization pipeline of `formatCategory` (background.js,
lines 862–869): strip quotes, trim, keep the first two whitespace-delimited
tokens, title-case each, re-join with single spaces. -/
def normalizeCategoryText (categoryText : String) : String :=
  let cleanedText := trimStr (removeQuotes categoryText)
  let words := (splitOnWs cleanedText).take 2
  String.intercalate " " (words.map titleCaseWord)

/-- Embedding of `formatCategory` (src/src/js/background.js, lines 861–891):
normalize the raw model text, then return the first configured category that
matches it case-insensitively (in the configured casing), else the normalized
text itself. -/
def formatCategory (categoryText : String) (availableCategories : List String) : String :=
  let formattedCategory := normalizeCategoryText categoryText
  match availableCategories.find? (fun category =>
      lowerStr category == lowerStr formattedCategory) with
  | some matchedCategory => matchedCategory
  | none => formattedCategory

/- ### Deterministic label colour (TabOrganizer.getCategoryColor) -/

/-- Chrome's supported group colours, in the source's order
(src/unnamed/part_001, lines 759–762, and identically src/unnamed/part_002,
lines 255–258). -/
def chromeColors : List String :=
  ["grey", "blue", "red", "yellow", "green", "pink", "purple", "cyan", "orange"]

/-- The character-code sum of `getCategoryColor`
(`category.split('').reduce((acc, char) => acc + char.charCodeAt(0), 0)`):
JavaScript's `split('')` splits into UTF-16 code units, so the sum ranges
over the label's UTF-16 code units. -/
def charCodeSum (s : String) : Nat :=
  ((s.data.map utf16CodeUnits).flatten).foldl (· + ·) 0

/-- Embedding of `TabOrganizer.getCategoryColor` (src/unnamed/part_001,
lines 752–771; identical in src/unnamed/part_002, lines 248–267): index the
fixed palette by the character-code sum modulo the palette size. -/
def getCategoryColor (category : String) : String :=
  chromeColors.getD (charCodeSum category % chromeColors.length) "grey"

/- ### Tab sort engine (src/src/js/modules/tabSorter.js) -/

/-- The sort key selector: `title` or `url` (the `property` argument of
`sortTabsByProperty`). -/
inductive SortProp where
  | title
  | url
deriving DecidableEq, Repr

/-- Lowercased sort key of a tab (tabSorter.js, lines 221–222:
`a[property].toLowerCase()`). -/
def sortKey (prop : SortProp) (t : Tab) : List Char :=
  match prop with
  | .title => (lowerStr t.title).data
  | .url => (lowerStr t.url).data

/-- The comparator of `sortTabsByProperty` (tabSorter.js, line 223:
`valueA.localeCompare(valueB)` on the lowercased keys), modelled as
code-point lexicographic order on the lowercased key. -/
def tabLe (prop : SortProp) (a b : Tab) : Prop :=
  lexLe (sortKey prop a) (sortKey prop b) = true

instance (prop : SortProp) : DecidableRel (tabLe prop) :=
  fun _ _ => inferInstanceAs (Decidable (_ = true))

/-- Embedding of `TabSorter.sortTabsByProperty` (tabSorter.js,
lines 219–225): a stable sort of a copy of the tab list by the
case-insensitive key comparator (JavaScript `Array.prototype.sort` is
specified stable; the embedding uses Mathlib's stable insertion sort). -/
def sortTabsByProperty (tabs : List Tab) (prop : SortProp) : List Tab :=
  List.insertionSort (tabLe prop) tabs

/-- The filter of `TabSorter.getAllTabs` (tabSorter.js, lines 196–201):
drop `chrome://` and `chrome-extension://` URLs and pinned tabs. -/
def sorterFilter (tabs : List Tab) : List Tab :=
  tabs.filter (fun tab =>
    !(strStartsWith tab.url "chrome://") &&
    !(strStartsWith tab.url "chrome-extension://") &&
    !tab.pinned)

/-- Move requests issued for one contiguous block of sorted tabs: the `i`-th
tab goes to index `start + i`.  With `checkIdx = true` a move is skipped when
the tab already sits at its target (the `if (tab.index !== newIndex)` guard
of `sortTabsWithinGroups`); `reorderTabs` issues every move unconditionally
(`checkIdx = false`). -/
def movesOfBlock (checkIdx : Bool) : Nat → List Tab → List (Nat × Nat)
  | _, [] => []
  | i, t :: rest =>
    (if checkIdx && t.index == i then [] else [(t.id, i)]) ++ movesOfBlock checkIdx (i + 1) rest

/-- Embedding of `TabSorter.reorderTabs` applied to the sorted list
(tabSorter.js, lines 232–256): move the `i`-th sorted tab to index `i`. -/
def reorderPlan (tabs : List Tab) (prop : SortProp) : List (Nat × Nat) :=
  movesOfBlock false 0 (sortTabsByProperty tabs prop)

/-- Minimum `index` over a tab list (`Math.min(...groupTabs.map(t => t.index))`;
only applied to non-empty lists in the source). -/
def minIndex : List Tab → Nat
  | [] => 0
  | t :: ts => ts.foldl (fun acc x => Nat.min acc x.index) t.index

/-- Maximum `index` over a tab list (the source finds it by sorting by
descending index and taking the head; only the index is consumed). -/
def maxIndex : List Tab → Nat
  | [] => 0
  | t :: ts => ts.foldl (fun acc x => Nat.max acc x.index) t.index

/-- Embedding of `TabSorter.sortTabsWithinGroups` (tabSorter.js,
lines 85–163) as the list of move requests it issues: each group's tabs are
sorted within the group's index range starting at the group's minimum index,
then the ungrouped tabs are sorted as one block placed after the last grouped
tab's index (or at 0 when no tab is grouped). -/
def sortWithinGroupsPlan (tabs : List Tab) (groups : List TabGroup)
    (prop : SortProp) : List (Nat × Nat) :=
  let groupMoves := (groups.map (fun g =>
    let groupTabs := tabs.filter (fun t => t.groupId == g.id)
    if groupTabs.length = 0 then []
    else movesOfBlock true (minIndex groupTabs) (sortTabsByProperty groupTabs prop))).flatten
  let ungroupedTabs := tabs.filter (fun t => t.groupId == -1)
  if ungroupedTabs.length = 0 then groupMoves
  else
    let groupedTabs := tabs.filter (fun t => !(t.groupId == -1))
    let startIndex := match groupedTabs with
      | [] => 0
      | _ :: _ => maxIndex groupedTabs + 1
    groupMoves ++ movesOfBlock true startIndex (sortTabsByProperty ungroupedTabs prop)

/-- Environment of one `sortByTitle`/`sortByUrl` call: the two queries of the
snapshot capture, the sorter's own tab query, and the group query used by the
within-groups branch. -/
structure SortEnv where
  saveTabsQ : Except String (List Tab)
  saveGroupsQ : Except String (List (Int × GroupInfo))
  tabsQ : Except String (List Tab)
  groupsQ : Except String (List TabGroup)

/-- Embedding of `TabSorter.sortByTitle` / `sortByUrl` (tabSorter.js,
lines 15–43 and 49–77), returning the snapshot-store state after the call and
either the list of issued move requests or the rethrown failure message.
`saveCurrentState` never throws, so the sort proceeds regardless of its
outcome; a rejected tab or group query reaches the `catch`, which throws the
generic failure message.  Grouped tabs are detected by
`groupId !== chrome.tabGroups.TAB_GROUP_ID_NONE && groupId !== -1`, and that
sentinel is −1. -/
def sortByProp (prop : SortProp) (prev : Option Snapshot) (now : Nat)
    (env : SortEnv) : Option Snapshot × Except String (List (Nat × Nat)) :=
  let st1 := (saveCurrentState prev now env.saveTabsQ env.saveGroupsQ).1
  let msg := match prop with
    | .title => "Failed to sort tabs by title"
    | .url => "Failed to sort tabs by URL"
  match env.tabsQ with
  | .error _ => (st1, .error msg)
  | .ok rawTabs =>
    let tabs := sorterFilter rawTabs
    if tabs.any (fun t => !(t.groupId == -1)) then
      match env.groupsQ with
      | .error _ => (st1, .error msg)
      | .ok groups => (st1, .ok (sortWithinGroupsPlan tabs groups prop))
    else (st1, .ok (reorderPlan tabs prop))

/-- Embedding of `TabSorter.sortByTitle`. -/
def sortByTitle (prev : Option Snapshot) (now : Nat) (env : SortEnv) :
    Option Snapshot × Except String (List (Nat × Nat)) :=
  sortByProp .title prev now env

/-- Embedding of `TabSorter.sortByUrl`. -/
def sortByUrl (prev : Option Snapshot) (now : Nat) (env : SortEnv) :
    Option Snapshot × Except String (List (Nat × Nat)) :=
  sortByProp .url prev now env

/- ### Tab organize engine (src/unnamed/part_001, `TabOrganizer`) -/

/-- Outcome of the `chrome.runtime.sendMessage` callback inside
`TabOrganizer.analyzeWithGemini` / `analyzeWithOllama` (part_001,
lines 578–595 and 652–669): either the runtime reports `lastError`, or the
response is absent, or a response object with a `category` string and an
optional `error` arrives. -/
inductive CallbackOutcome where
  | lastError (msg : String)
  | noResponse
  | response (category : String) (errorMsg : Option String)
deriving DecidableEq, Repr

/-- Behaviour of one backend message round-trip: a settled callback after `t`
milliseconds, or no settlement at all. -/
inductive BackendBehavior where
  | respondsAt (t : Nat) (outcome : CallbackOutcome)
  | never
deriving DecidableEq, Repr

/-- Result object with which the organizer-side analysis promises resolve. -/
structure AnalysisResult where
  category : String
  errorMsg : Option String
deriving DecidableEq, Repr

/-- The callback branches of the organizer-side analysis promise (part_001,
lines 578–595): `lastError` and an error response resolve with category
"Misc" carrying the error, a missing response resolves with "Misc" and
"No response", and otherwise the response is passed through. -/
def handleCallback : CallbackOutcome → AnalysisResult
  | .lastError msg => ⟨"Misc", some msg⟩
  | .noResponse => ⟨"Misc", some "No response"⟩
  | .response category errorMsg =>
    match errorMsg with
    | some err => ⟨"Misc", some err⟩
    | none => ⟨category, none⟩

/-- The `Promise.race` of the analysis promise against the timeout promise
(part_001, lines 599–610 and 673–684): if the callback settles strictly
before the timer fires, its result wins; otherwise the timer resolves with
the fixed result `{category: 'Misc', error: 'Analysis timeout'}`.  Neither
side ever rejects, so the race always resolves. -/
def raceWithTimeout (timeoutMs : Nat) (b : BackendBehavior) : AnalysisResult :=
  match b with
  | .never => ⟨"Misc", some "Analysis timeout"⟩
  | .respondsAt t outcome =>
    if t < timeoutMs then handleCallback outcome
    else ⟨"Misc", some "Analysis timeout"⟩

/-- Embedding of `TabOrganizer.analyzeWithGemini` (src/unnamed/part_001,
lines 552–615): the configured timeout is `timeoutSeconds * 1000`
milliseconds (`analysisTimeout` setting, default 15). -/
def organizerAnalyzeWithGemini (timeoutSeconds : Nat) (b : BackendBehavior) :
    AnalysisResult :=
  raceWithTimeout (timeoutSeconds * 1000) b

/-- Embedding of `TabOrganizer.analyzeWithOllama` (src/unnamed/part_001,
lines 625–689): identical race and timeout handling. -/
def organizerAnalyzeWithOllama (timeoutSeconds : Nat) (b : BackendBehavior) :
    AnalysisResult :=
  raceWithTimeout (timeoutSeconds * 1000) b

/-- The broken-tab test of `TabOrganizer.analyzeTabs` (part_001,
lines 464–467): internal error page, still loading, or an error title. -/
def isBrokenTab (t : Tab) : Bool :=
  strContains t.url "chrome-error://" ||
  t.status == "loading" ||
  strContains t.title "ERR_" ||
  strContains t.title "Error"

/-- Suffix of a character list after the first occurrence of `pat`, or
`none` when `pat` does not occur. -/
def afterFirstSub (pat : List Char) : List Char → Option (List Char)
  | [] => none
  | c :: rest =>
    if listStartsWith pat (c :: rest) then some ((c :: rest).drop pat.length)
    else afterFirstSub pat rest

/-- Hostname of a URL, modelling `new URL(url).hostname` for the ordinary
URLs the extension meets: the authority part after "://" up to the first
'/', '?' or '#', with any userinfo before '@' dropped, any ':port' suffix
dropped, and the result lowercased (the WHATWG parser lowercases hosts).
`none` models the `URL` constructor throwing (no "://" at all). -/
def hostnameOf (url : String) : Option String :=
  match afterFirstSub "://".data url.data with
  | none => none
  | some rest =>
    let authority := rest.takeWhile (fun c => !(c == '/' || c == '?' || c == '#'))
    let afterUser := ((authority.reverse.takeWhile (fun c => !(c == '@'))).reverse)
    let host := afterUser.takeWhile (fun c => !(c == ':'))
    some ⟨host.map Char.toLower⟩

/-- The URL-host fallback label of `analyzeTabs` for broken tabs (part_001,
lines 469–482): for an `http*` URL, take the hostname, remove the first
occurrence of "www.", keep the first dot-separated label, capitalize its
first character; otherwise (or when URL parsing throws) "Unknown"; an empty
result is replaced by "Error" (`domain || 'Error'`). -/
def brokenTabLabel (t : Tab) : String :=
  let domain :=
    if strStartsWith t.url "http" then
      match hostnameOf t.url with
      | none => "Unknown"
      | some host =>
        let stripped := removeFirstSub "www.".data host.data
        let firstLabel := stripped.takeWhile (fun c => !(c == '.'))
        match firstLabel with
        | [] => ""
        | c :: rest => ⟨Char.toUpper c :: rest⟩
    else "Unknown"
  if domain == "" then "Error" else domain

/-- Per-tab analysis environment for one organize run: what the awaited
organizer-side analysis call does for each tab id.  The awaited call itself
never rejects (it resolves through `raceWithTimeout`), but the surrounding
per-tab code can still throw, which the per-tab `catch` absorbs. -/
inductive ModelCall where
  | resolved (r : AnalysisResult)
  | threw (msg : String)
deriving DecidableEq, Repr

/-- Category assigned to one tab by `TabOrganizer.analyzeTabs` (part_001,
lines 460–537): broken tabs get the URL-host fallback without any model
call; otherwise the resolved result's `category` is used when it is a
non-empty (truthy) string, and every other outcome — error result, empty
category, or a thrown exception caught by the per-tab `catch` — yields
"Misc". -/
def categorizeTab (env : Nat → ModelCall) (t : Tab) : String :=
  if isBrokenTab t then brokenTabLabel t
  else
    match env t.id with
    | .threw _ => "Misc"
    | .resolved r => if r.category == "" then "Misc" else r.category

/-- Embedding of `TabOrganizer.analyzeTabs` (src/unnamed/part_001,
lines 426–544) as the final `tabCategories` mapping.  The source fills a
shared object from batches of five concurrently-awaited per-tab tasks; since
every task writes exactly the key of its own (unique) tab id, the final
mapping is the per-tab categorization, modelled in tab order.  (JavaScript
orders the object's integer keys ascending, which affects only the order in
which groups are later created, not the mapping.) -/
def analyzeTabs (env : Nat → ModelCall) (tabs : List Tab) : List (Nat × String) :=
  tabs.map (fun t => (t.id, categorizeTab env t))

/-- First-occurrence deduplication with the set of already-seen values
carried along, modelling the insertion-order iteration of a `Set`. -/
def firstOccurrencesAux (seen : List String) : List String → List String
  | [] => []
  | c :: rest =>
    if c ∈ seen then firstOccurrencesAux seen rest
    else c :: firstOccurrencesAux (c :: seen) rest

/-- First-occurrence deduplication, modelling `[...new Set(values)]`. -/
def firstOccurrences (l : List String) : List String :=
  firstOccurrencesAux [] l

/-- Embedding of `TabOrganizer.groupTabsByCategory` (src/unnamed/part_001,
lines 709–750) as the grouping requests it issues: for each distinct
assigned category, the ids of the tabs assigned to it (skipping empty id
sets, per the `tabIds.length > 0` guard); each request then titles the new
group with the category.  Per-group failures are caught and skipped, so the
request list is the full plan. -/
def groupTabsByCategory (tabCategories : List (Nat × String)) :
    List (String × List Nat) :=
  let categories := firstOccurrences (tabCategories.map Prod.snd)
  categories.filterMap (fun category =>
    let tabIds := tabCategories.filterMap (fun p =>
      if p.2 == category then some p.1 else none)
    if tabIds.length = 0 then none else some (category, tabIds))

/-- The eligible-tab selection of `TabOrganizer.organizeByContent`
(src/unnamed/part_001, lines 385–387): only pinned tabs are dropped. -/
def organizeEligible (tabs : List Tab) : List Tab :=
  tabs.filter (fun t => !t.pinned)

/-- Embedding of `TabOrganizer.organizeByContent` (src/unnamed/part_001,
lines 374–418), returning the snapshot-store state after the call and either
the grouping plan of a completed run or the thrown error.  The snapshot
capture cannot throw; a rejected `chrome.tabs.query` reaches the `catch` and
is rethrown; zero unpinned tabs throws "No unpinned tabs to organize";
otherwise the run analyzes the unpinned tabs and issues the grouping
requests, and returns successfully. -/
def organizeByContent (prev : Option Snapshot) (now : Nat)
    (saveTabsQ : Except String (List Tab))
    (saveGroupsQ : Except String (List (Int × GroupInfo)))
    (tabsQ : Except String (List Tab))
    (env : Nat → ModelCall) :
    Option Snapshot × Except String (List (String × List Nat)) :=
  let st1 := (saveCurrentState prev now saveTabsQ saveGroupsQ).1
  match tabsQ with
  | .error e => (st1, .error e)
  | .ok tabs =>
    let unpinnedTabs := organizeEligible tabs
    if unpinnedTabs.length = 0 then (st1, .error "No unpinned tabs to organize")
    else (st1, .ok (groupTabsByCategory (analyzeTabs env unpinnedTabs)))

/- ### Order-theoretic facts about the sort comparator -/

theorem lexLe_cons_iff (a b : Char) (as bs : List Char) :
    lexLe (a :: as) (b :: bs) = true ↔
      (a.toNat < b.toNat ∨ (a.toNat = b.toNat ∧ lexLe as bs = true)) := by
  simp only [lexLe]
  by_cases h1 : a.toNat < b.toNat
  · simp [h1]
  · by_cases h2 : b.toNat < a.toNat
    · simp [h1, h2]
      omega
    · have he : a.toNat = b.toNat := by omega
      simp [h1, h2, he]

theorem lexLe_refl (x : List Char) : lexLe x x = true := by
  induction x with
  | nil => rfl
  | cons a as ih =>
    rw [lexLe_cons_iff]
    exact Or.inr ⟨rfl, ih⟩

theorem lexLe_total (x : List Char) : ∀ y, lexLe x y = true ∨ lexLe y x = true := by
  induction x with
  | nil => intro y; exact Or.inl rfl
  | cons a as ih =>
    intro y
    cases y with
    | nil => exact Or.inr rfl
    | cons b bs =>
      rw [lexLe_cons_iff, lexLe_cons_iff]
      rcases Nat.lt_trichotomy a.toNat b.toNat with h | h | h
      · exact Or.inl (Or.inl h)
      · rcases ih bs with h2 | h2
        · exact Or.inl (Or.inr ⟨h, h2⟩)
        · exact Or.inr (Or.inr ⟨h.symm, h2⟩)
      · exact Or.inr (Or.inl h)

theorem lexLe_trans (x : List Char) :
    ∀ y z, lexLe x y = true → lexLe y z = true → lexLe x z = true := by
  induction x with
  | nil => intro y z _ _; rfl
  | cons a as ih =>
    intro y z h1 h2
    cases y with
    | nil => simp [lexLe] at h1
    | cons b bs =>
      cases z with
      | nil => simp [lexLe] at h2
      | cons c cs =>
        rw [lexLe_cons_iff] at h1 h2 ⊢
        rcases h1 with h1 | ⟨h1e, h1r⟩
        · rcases h2 with h2 | ⟨h2e, h2r⟩
          · exact Or.inl (by omega)
          · exact Or.inl (by omega)
        · rcases h2 with h2 | ⟨h2e, h2r⟩
          · exact Or.inl (by omega)
          · exact Or.inr ⟨by omega, ih bs cs h1r h2r⟩

instance (prop : SortProp) : IsTotal Tab (tabLe prop) :=
  ⟨fun a b => lexLe_total (sortKey prop a) (sortKey prop b)⟩

instance (prop : SortProp) : IsTrans Tab (tabLe prop) :=
  ⟨fun a b c h1 h2 => lexLe_trans (sortKey prop a) (sortKey prop b) (sortKey prop c) h1 h2⟩

/- ### Stability of the sort -/

theorem filter_orderedInsert_of_neg (prop : SortProp) (p : Tab → Bool) (a : Tab)
    (ha : p a = false) (l : List Tab) :
    (List.orderedInsert (tabLe prop) a l).filter p = l.filter p := by
  induction l with
  | nil => simp [List.orderedInsert, List.filter_cons, ha]
  | cons b t ih =>
    by_cases h : tabLe prop a b
    · simp [List.orderedInsert, h, List.filter_cons, ha]
    · simp only [List.orderedInsert, if_neg h, List.filter_cons]
      cases hb : p b <;> simp [hb, ih]

theorem filter_orderedInsert_of_pos (prop : SortProp) (p : Tab → Bool) (a : Tab)
    (ha : p a = true) (l : List Tab)
    (hall : ∀ b : Tab, p b = true → tabLe prop a b) :
    (List.orderedInsert (tabLe prop) a l).filter p = a :: l.filter p := by
  induction l with
  | nil => simp [List.orderedInsert, List.filter_cons, ha]
  | cons b t ih =>
    by_cases h : tabLe prop a b
    · simp [List.orderedInsert, h, List.filter_cons, ha]
    · have hb : p b = false := by
        cases hpb : p b
        · rfl
        · exact absurd (hall b hpb) h
      simp [List.orderedInsert, h, List.filter_cons, hb, ih]

theorem sortTabsByProperty_filter_stable (tabs : List Tab) (prop : SortProp)
    (k : List Char) :
    (sortTabsByProperty tabs prop).filter (fun t => sortKey prop t == k)
      = tabs.filter (fun t => sortKey prop t == k) := by
  simp only [sortTabsByProperty]
  induction tabs with
  | nil => rfl
  | cons t ts ih =>
    show (List.orderedInsert (tabLe prop) t
        (List.insertionSort (tabLe prop) ts)).filter _ = _
    cases hk : (sortKey prop t == k) with
    | false =>
      rw [filter_orderedInsert_of_neg prop _ t hk, List.filter_cons]
      simp only [hk, Bool.false_eq_true, if_false]
      exact ih
    | true =>
      rw [filter_orderedInsert_of_pos prop _ t hk _ ?hall, List.filter_cons]
      · simp only [hk, if_true]
        rw [ih]
      case hall =>
        intro b hb
        have h1 : sortKey prop t = k := by simpa using hk
        have h2 : sortKey prop b = k := by simpa using hb
        show lexLe (sortKey prop t) (sortKey prop b) = true
        rw [h1, h2]
        exact lexLe_refl k

/- ### Membership facts for move and grouping plans -/

theorem mem_movesOfBlock (c : Bool) (ts : List Tab) :
    ∀ (i : Nat) (m : Nat × Nat), m ∈ movesOfBlock c i ts → ∃ t ∈ ts, m.1 = t.id := by
  induction ts with
  | nil => intro i m h; simp [movesOfBlock] at h
  | cons t rest ih =>
    intro i m h
    simp only [movesOfBlock, List.mem_append] at h
    rcases h with h | h
    · by_cases hc : (c && t.index == i) = true
      · rw [if_pos hc] at h
        simp at h
      · rw [if_neg hc] at h
        simp only [List.mem_singleton] at h
        exact ⟨t, List.mem_cons_self t rest, by rw [h]⟩
    · obtain ⟨u, hu, he⟩ := ih (i + 1) m h
      exact ⟨u, List.mem_cons_of_mem _ hu, he⟩

theorem mem_firstOccurrencesAux (a : String) :
    ∀ (l seen : List String), a ∈ l → a ∉ seen → a ∈ firstOccurrencesAux seen l := by
  intro l
  induction l with
  | nil => intro seen h _; simp at h
  | cons c rest ih =>
    intro seen hmem hseen
    by_cases hc : c ∈ seen
    · rw [firstOccurrencesAux, if_pos hc]
      rcases List.mem_cons.mp hmem with rfl | h
      · exact absurd hc hseen
      · exact ih seen h hseen
    · rw [firstOccurrencesAux, if_neg hc]
      rcases List.mem_cons.mp hmem with rfl | h
      · exact List.mem_cons_self a _
      · by_cases hac : a = c
        · subst hac
          exact List.mem_cons_self a _
        · refine List.mem_cons_of_mem _ (ih (c :: seen) h ?_)
          intro hin
          rcases List.mem_cons.mp hin with rfl | hin2
          · exact hac rfl
          · exact hseen hin2

theorem exists_group_of_mem (pairs : List (Nat × String)) (i : Nat) (cat : String)
    (hmem : (i, cat) ∈ pairs) :
    ∃ g ∈ groupTabsByCategory pairs, g.1 = cat ∧ i ∈ g.2 := by
  have hcat : cat ∈ pairs.map Prod.snd := List.mem_map_of_mem Prod.snd hmem
  have hfo : cat ∈ firstOccurrences (pairs.map Prod.snd) :=
    mem_firstOccurrencesAux cat _ [] hcat (by simp)
  have hi : i ∈ pairs.filterMap (fun p => if p.2 == cat then some p.1 else none) :=
    List.mem_filterMap.mpr ⟨(i, cat), hmem, by simp⟩
  have hlen : ¬ (pairs.filterMap (fun p => if p.2 == cat then some p.1 else none)).length = 0 := by
    intro h0
    rw [List.length_eq_zero] at h0
    rw [h0] at hi
    simp at hi
  refine ⟨(cat, pairs.filterMap (fun p => if p.2 == cat then some p.1 else none)),
    ?_, rfl, hi⟩
  unfold groupTabsByCategory
  exact List.mem_filterMap.mpr ⟨cat, hfo, by rw [if_neg hlen]⟩

/- ### Failed analysis calls -/

/-- A per-tab analysis call that failed: the task threw (and was absorbed by
the per-tab `catch`), or the awaited organizer-side analysis resolved with an
error result — which, per `handleCallback` and `raceWithTimeout`, always
carries the category "Misc". -/
def CallFails (c : ModelCall) : Prop :=
  (∃ m, c = .threw m) ∨ (∃ m, c = .resolved ⟨"Misc", some m⟩)

/-- Label a tab receives when its analysis fails: the URL-host fallback for
broken tabs, "Misc" otherwise. -/
def fallbackLabel (t : Tab) : String :=
  if isBrokenTab t then brokenTabLabel t else "Misc"

theorem categorizeTab_of_fails (env : Nat → ModelCall) (t : Tab)
    (h : CallFails (env t.id)) : categorizeTab env t = fallbackLabel t := by
  unfold categorizeTab fallbackLabel
  by_cases hb : isBrokenTab t = true
  · simp [hb]
  · simp only [hb, Bool.false_eq_true, if_false]
    rcases h with ⟨m, hm⟩ | ⟨m, hm⟩
    all_goals rw [hm]
    all_goals simp

/- ### Outcome of a restore -/

theorem restore_true_clears (prev : Option Snapshot) (env : RestoreEnv)
    (h : (restorePreviousState prev env).2 = true) :
    (restorePreviousState prev env).1 = none := by
  cases prev with
  | none => simp [restorePreviousState] at h
  | some st =>
    cases htq : env.tabsQ with
    | error e => simp [restorePreviousState, htq] at h
    | ok cur =>
      by_cases hlen :
          (st.tabs.filter (fun t => (cur.map Tab.id).contains t.id)).length = 0
      · simp only [restorePreviousState, htq] at h
        rw [if_pos hlen] at h
        simp at h
      · cases hug : env.ungroupQ with
        | error e =>
          simp only [restorePreviousState, htq] at h
          rw [if_neg hlen, hug] at h
          simp at h
        | ok u =>
          simp only [restorePreviousState, htq]
          rw [if_neg hlen, hug]

theorem retainedCount_le_one (s : Option Snapshot) : retainedCount s ≤ 1 := by
  cases s <;> simp [retainedCount]

/- ### Shared concrete values for witnesses -/

/-- Concrete live tab used by several witnesses. -/
def sampleTab : Tab :=
  { id := 5, index := 0, url := "https://example.com/", title := "Example",
    pinned := false, groupId := -1, status := "complete" }

/-- Concrete snapshot holding `sampleTab`, used by several witnesses. -/
def sampleSnap : Snapshot := mkSnapshot 0 [sampleTab] []

/- ### Claim theorems -/

/-- C1: the snapshot store is single-slot and single-use.  A successful
capture replaces whatever snapshot was held with the new one, so only the
most recent capture is restorable; a successful restore sets the stored
snapshot back to `none`, making `canUndo` false afterwards; and over every
sequence of store operations at most one snapshot is retained. -/
theorem snapshot_single_slot (prev : Option Snapshot) (now : Nat) (tabs : List Tab)
    (groups : List (Int × GroupInfo)) (env : RestoreEnv) (ops : List StoreOp) :
    (saveCurrentState prev now (.ok tabs) (.ok groups)).1
        = some (mkSnapshot now tabs groups) ∧
    ((restorePreviousState prev env).2 = true →
      (restorePreviousState prev env).1 = none ∧
      canUndo (restorePreviousState prev env).1 = false) ∧
    retainedCount (runStoreOps none ops) ≤ 1 := by
  refine ⟨rfl, ?_, retainedCount_le_one _⟩
  intro h
  have hc := restore_true_clears prev env h
  exact ⟨hc, by rw [hc]; rfl⟩

/-- Witness for C1 at a concrete state: a restore that succeeds (snapshot
held, its tab still alive, ungrouping fine) leaves the store empty. -/
theorem snapshot_single_slot_witness :
    (restorePreviousState (some sampleSnap) ⟨.ok [sampleTab], .ok ()⟩).1 = none :=
  ((snapshot_single_slot (some sampleSnap) 0 [] [] ⟨.ok [sampleTab], .ok ()⟩ []).2.1
    (by decide)).1

/-- C2: restoring with no snapshot held returns `false` and mutates nothing,
and restoring when the snapshot's tab records have no surviving live id
reports failure while keeping the snapshot (it is cleared only on the
successful completion path). -/
theorem restore_noop_and_empty_failure (env : RestoreEnv) (snap : Snapshot)
    (liveTabs : List Tab) :
    restorePreviousState none env = (none, false) ∧
    (env.tabsQ = .ok liveTabs →
      (snap.tabs.filter (fun t => (liveTabs.map Tab.id).contains t.id)).length = 0 →
      restorePreviousState (some snap) env = (some snap, false)) := by
  refine ⟨rfl, ?_⟩
  intro htq hlen
  simp only [restorePreviousState, htq]
  rw [if_pos hlen]

/-- Witness for C2 at a concrete state: a snapshot whose only tab is no
longer alive is kept and the restore reports failure. -/
theorem restore_noop_and_empty_failure_witness :
    restorePreviousState (some sampleSnap) ⟨.ok [], .ok ()⟩ = (some sampleSnap, false) :=
  (restore_noop_and_empty_failure ⟨.ok [], .ok ()⟩ sampleSnap []).2 rfl (by decide)

theorem firstMatchCategory_append (cl : String) (pre rs : List ClassifierRule)
    (hpre : ∀ r ∈ pre, ruleMatches cl r = false) :
    firstMatchCategory cl (pre ++ rs) = firstMatchCategory cl rs := by
  induction pre with
  | nil => rfl
  | cons r rest ih =>
    have hr := hpre r (List.mem_cons_self r rest)
    rw [List.cons_append, firstMatchCategory]
    simp only [hr, Bool.false_eq_true, if_false]
    exact ih (fun r' h => hpre r' (List.mem_cons_of_mem _ h))

theorem firstMatchCategory_all_false (cl : String) (rs : List ClassifierRule)
    (h : ∀ r ∈ rs, ruleMatches cl r = false) : firstMatchCategory cl rs = "Misc" := by
  induction rs with
  | nil => rfl
  | cons r rest ih =>
    rw [firstMatchCategory]
    simp only [h r (List.mem_cons_self r rest), Bool.false_eq_true, if_false]
    exact ih (fun r' h' => h r' (List.mem_cons_of_mem _ h'))

/-- C3: the keyword classifier is a deterministic pure function; it walks the
fixed ordered rule list over the lowercased input and returns the label of
the first rule with a matching keyword (first match wins), and exactly "Misc"
when no rule matches. -/
theorem classifier_first_match (content : String) :
    simulateAICategory content = simulateAICategory content ∧
    (∀ pre r post, classifierRules = pre ++ r :: post →
      (∀ r' ∈ pre, ruleMatches (lowerStr content) r' = false) →
      ruleMatches (lowerStr content) r = true →
      simulateAICategory content = r.category) ∧
    ((∀ r ∈ classifierRules, ruleMatches (lowerStr content) r = false) →
      simulateAICategory content = "Misc") := by
  refine ⟨rfl, ?_, ?_⟩
  · intro pre r post heq hpre hr
    unfold simulateAICategory
    rw [heq, firstMatchCategory_append _ pre _ hpre, firstMatchCategory]
    simp [hr]
  · intro hall
    unfold simulateAICategory
    exact firstMatchCategory_all_false _ _ hall

/-- Witness for C3 at a concrete input: "Buy the product" misses the News
rule and matches the Shopping rule, so the Shopping label is returned. -/
theorem classifier_first_match_witness :
    simulateAICategory "Buy the product" = "Shopping" :=
  (classifier_first_match "Buy the product").2.1 (classifierRules.take 1)
    ⟨["shop", "price", "buy", "cart", "product"], "Shopping"⟩ (classifierRules.drop 2)
    rfl (by decide) (by decide)

/-- C4: label normalization.  The formatter strips quotes, trims, keeps the
first two whitespace-delimited tokens and title-cases them
(`normalizeCategoryText`); when some configured category matches the result
case-insensitively the configured casing is returned, otherwise the
normalized text itself; in particular with set ["Tech", "News"] and raw
output "tech " it returns exactly "Tech". -/
theorem format_category_normalizes (raw : String) (set : List String) :
    ((∃ m ∈ set, lowerStr m = lowerStr (normalizeCategoryText raw)) →
      formatCategory raw set ∈ set ∧
      lowerStr (formatCategory raw set) = lowerStr (normalizeCategoryText raw)) ∧
    ((∀ m ∈ set, lowerStr m ≠ lowerStr (normalizeCategoryText raw)) →
      formatCategory raw set = normalizeCategoryText raw) ∧
    formatCategory "tech " ["Tech", "News"] = "Tech" := by
  have hmatch : formatCategory raw set =
      match set.find? (fun category =>
        lowerStr category == lowerStr (normalizeCategoryText raw)) with
      | some matchedCategory => matchedCategory
      | none => normalizeCategoryText raw := rfl
  refine ⟨?_, ?_, by decide⟩
  · intro hex
    cases hf : set.find? (fun category =>
        lowerStr category == lowerStr (normalizeCategoryText raw)) with
    | none =>
      exfalso
      obtain ⟨m, hm, he⟩ := hex
      exact List.find?_eq_none.mp hf m hm (by simp [he])
    | some m =>
      rw [hmatch, hf]
      refine ⟨List.mem_of_find?_eq_some hf, ?_⟩
      have h2 := List.find?_some hf
      simpa using h2
  · intro hall
    cases hf : set.find? (fun category =>
        lowerStr category == lowerStr (normalizeCategoryText raw)) with
    | none => rw [hmatch, hf]
    | some m =>
      exfalso
      exact hall m (List.mem_of_find?_eq_some hf) (by simpa using List.find?_some hf)

/-- Witness for C4 at the concrete instance from the claim: the configured
casing "Tech" is returned for raw output "tech ". -/
theorem format_category_normalizes_witness :
    formatCategory "tech " ["Tech", "News"] ∈ (["Tech", "News"] : List String) :=
  ((format_category_normalizes "tech " ["Tech", "News"]).1
    ⟨"Tech", by decide, by decide⟩).1

/-- Backend behaviour that exceeds the configured organizer-side timeout:
either the callback never settles, or it settles no earlier than the timer. -/
def TimesOut (timeoutSeconds : Nat) (b : BackendBehavior) : Prop :=
  b = .never ∨ ∃ t o, b = .respondsAt t o ∧ timeoutSeconds * 1000 ≤ t

/-- C5 counterexample: a timed-out organizer-side call resolves with the
fixed category "Misc", which differs from the keyword-fallback label
`classify(excerpt)` for the excerpt "tech" (whose keyword label is "Tech"),
so the timed-out call does not yield `classify(excerpt)`. -/
theorem timeout_not_classify_counterexample :
    organizerAnalyzeWithGemini 15 .never = ⟨"Misc", some "Analysis timeout"⟩ ∧
    simulateAICategory "tech" = "Tech" ∧
    (organizerAnalyzeWithGemini 15 .never).category ≠ simulateAICategory "tech" := by
  refine ⟨rfl, by decide, by decide⟩

/-- C5 as amended: a tab analysis call whose backend does not respond within
the configured timeout bound always resolves (never hangs and never surfaces
a rejection) with the fixed fallback result `{category: "Misc",
error: "Analysis timeout"}` — not with `classify(excerpt)`, which it equals
only when no keyword rule matches the excerpt. -/
theorem timeout_yields_fixed_misc (timeoutSeconds : Nat) (b : BackendBehavior)
    (h : TimesOut timeoutSeconds b) :
    organizerAnalyzeWithGemini timeoutSeconds b = ⟨"Misc", some "Analysis timeout"⟩ ∧
    organizerAnalyzeWithOllama timeoutSeconds b = ⟨"Misc", some "Analysis timeout"⟩ := by
  rcases h with rfl | ⟨t, o, rfl, ht⟩
  · exact ⟨rfl, rfl⟩
  · have hnl : ¬ t < timeoutSeconds * 1000 := by omega
    constructor
    · simp [organizerAnalyzeWithGemini, raceWithTimeout, hnl]
    · simp [organizerAnalyzeWithOllama, raceWithTimeout, hnl]

/-- Witness for the amended C5 at the default 15-second timeout and a
backend that answers "Tech" only after 20 seconds. -/
theorem timeout_yields_fixed_misc_witness :
    organizerAnalyzeWithGemini 15 (.respondsAt 20000 (.response "Tech" none))
      = ⟨"Misc", some "Analysis timeout"⟩ :=
  (timeout_yields_fixed_misc 15 (.respondsAt 20000 (.response "Tech" none))
    (Or.inr ⟨20000, .response "Tech" none, rfl, by decide⟩)).1

/-- Concrete unpinned browser-internal tab used for the C6 counterexample. -/
def internalTab : Tab :=
  { id := 9, index := 0, url := "chrome://settings", title := "Settings",
    pinned := false, groupId := -1, status := "complete" }

/-- C6 counterexample: the organize path keeps an unpinned `chrome://` tab
among the tabs selected for grouping, so organize runs do not exclude
browser-internal-scheme tabs. -/
theorem organize_keeps_internal_counterexample :
    internalTab ∈ organizeEligible [internalTab] ∧
    strStartsWith internalTab.url "chrome://" = true ∧
    internalTab.pinned = false := by
  refine ⟨by decide, by decide, by decide⟩

/-- C6 as amended: the sort path selects no pinned tab and no
browser-internal-scheme (`chrome://`, `chrome-extension://`) tab, and every
move request a sort issues targets a selected — hence unpinned — tab; the
organize path excludes only pinned tabs (browser-internal-scheme tabs remain
eligible for organizing), so neither operation requests a move or grouping
of a pinned tab. -/
theorem sort_organize_exclusions (prop : SortProp) (rawTabs : List Tab)
    (groups : List TabGroup) :
    (∀ t ∈ sorterFilter rawTabs, t.pinned = false ∧
      strStartsWith t.url "chrome://" = false ∧
      strStartsWith t.url "chrome-extension://" = false) ∧
    (∀ t ∈ organizeEligible rawTabs, t.pinned = false) ∧
    (∀ m ∈ reorderPlan (sorterFilter rawTabs) prop,
      ∃ t ∈ sorterFilter rawTabs, m.1 = t.id ∧ t.pinned = false) ∧
    (∀ m ∈ sortWithinGroupsPlan (sorterFilter rawTabs) groups prop,
      ∃ t ∈ sorterFilter rawTabs, m.1 = t.id ∧ t.pinned = false) := by
  have hsel : ∀ t ∈ sorterFilter rawTabs, t.pinned = false ∧
      strStartsWith t.url "chrome://" = false ∧
      strStartsWith t.url "chrome-extension://" = false := by
    intro t ht
    have := (List.mem_filter.mp ht).2
    simp only [Bool.and_eq_true, Bool.not_eq_eq_eq_not, Bool.not_true] at this
    exact ⟨this.2, this.1.1, this.1.2⟩
  refine ⟨hsel, ?_, ?_, ?_⟩
  · intro t ht
    have := (List.mem_filter.mp ht).2
    simpa using this
  · intro m hm
    obtain ⟨t, ht, he⟩ := mem_movesOfBlock false _ 0 m hm
    have ht2 : t ∈ sorterFilter rawTabs := by
      have := (List.perm_insertionSort (tabLe prop) (sorterFilter rawTabs)).mem_iff.mp ht
      exact this
    exact ⟨t, ht2, he, (hsel t ht2).1⟩
  · intro m hm
    unfold sortWithinGroupsPlan at hm
    have main : ∀ t ∈ sorterFilter rawTabs,
        m.1 = t.id → ∃ t' ∈ sorterFilter rawTabs, m.1 = t'.id ∧ t'.pinned = false :=
      fun t ht he => ⟨t, ht, he, (hsel t ht).1⟩
    have hgroupMoves : ∀ m' : Nat × Nat,
        m' ∈ ((groups.map (fun g =>
          let groupTabs := (sorterFilter rawTabs).filter (fun t => t.groupId == g.id)
          if groupTabs.length = 0 then []
          else movesOfBlock true (minIndex groupTabs)
            (sortTabsByProperty groupTabs prop))).flatten) →
        ∃ t ∈ sorterFilter rawTabs, m'.1 = t.id := by
      intro m' hm'
      obtain ⟨l, hl, hml⟩ := List.mem_flatten.mp hm'
      obtain ⟨g, _, hgl⟩ := List.mem_map.mp hl
      by_cases hlen :
          ((sorterFilter rawTabs).filter (fun t => t.groupId == g.id)).length = 0
      · rw [← hgl] at hml
        simp only [hlen, if_true] at hml
        simp at hml
      · rw [← hgl] at hml
        simp only [hlen, if_false] at hml
        obtain ⟨t, ht, he⟩ := mem_movesOfBlock true _ _ m' hml
        have ht2 : t ∈ (sorterFilter rawTabs).filter (fun t => t.groupId == g.id) :=
          (List.perm_insertionSort (tabLe prop) _).mem_iff.mp ht
        exact ⟨t, (List.mem_filter.mp ht2).1, he⟩
    by_cases hun :
        ((sorterFilter rawTabs).filter (fun t => t.groupId == -1)).length = 0
    · rw [if_pos hun] at hm
      obtain ⟨t, ht, he⟩ := hgroupMoves m hm
      exact main t ht he
    · rw [if_neg hun, List.mem_append] at hm
      rcases hm with hm | hm
      · obtain ⟨t, ht, he⟩ := hgroupMoves m hm
        exact main t ht he
      · obtain ⟨t, ht, he⟩ := mem_movesOfBlock true _ _ m hm
        have ht2 : t ∈ (sorterFilter rawTabs).filter (fun t => t.groupId == -1) :=
          (List.perm_insertionSort (tabLe prop) _).mem_iff.mp ht
        exact main t ((List.mem_filter.mp ht2).1) he

/-- Witness for the amended C6 at a concrete tab list: the ordinary tab
survives the sort selection unpinned and non-internal. -/
theorem sort_organize_exclusions_witness :
    sampleTab.pinned = false ∧
    strStartsWith sampleTab.url "chrome://" = false ∧
    strStartsWith sampleTab.url "chrome-extension://" = false :=
  (sort_organize_exclusions .title [internalTab, sampleTab] []).1 sampleTab (by decide)

/-- C7: the sort engine orders tabs by the case-insensitive comparison of
the lowercased key, permutes the input, is stable — tabs with equal keys
keep their relative order, expressed as preservation of every equal-key
filtered subsequence — and is idempotent: sorting twice by the same key
equals sorting once. -/
theorem sort_ordered_stable_idempotent (tabs : List Tab) (prop : SortProp)
    (k : List Char) :
    List.Sorted (tabLe prop) (sortTabsByProperty tabs prop) ∧
    (sortTabsByProperty tabs prop).Perm tabs ∧
    (sortTabsByProperty tabs prop).filter (fun t => sortKey prop t == k)
      = tabs.filter (fun t => sortKey prop t == k) ∧
    sortTabsByProperty (sortTabsByProperty tabs prop) prop
      = sortTabsByProperty tabs prop := by
  refine ⟨List.sorted_insertionSort _ _, List.perm_insertionSort _ _,
    sortTabsByProperty_filter_stable tabs prop k, ?_⟩
  exact List.Sorted.insertionSort_eq (List.sorted_insertionSort (tabLe prop) tabs)

/-- C8: the label-to-colour mapping is a pure deterministic function of the
label: it sums the label's character codes, reduces modulo the fixed
9-element palette, always lands in the palette, gives equal colours to
labels with equal hash residue, and in particular maps "Misc" (code sum 396,
residue 0) to "grey". -/
theorem category_color_deterministic (s t : String) :
    getCategoryColor s = getCategoryColor s ∧
    getCategoryColor s ∈ chromeColors ∧
    (charCodeSum s % 9 = charCodeSum t % 9 →
      getCategoryColor s = getCategoryColor t) ∧
    getCategoryColor "Misc" = "grey" := by
  have hlen : chromeColors.length = 9 := rfl
  refine ⟨rfl, ?_, ?_, by decide⟩
  · unfold getCategoryColor
    have hmod : charCodeSum s % chromeColors.length < chromeColors.length :=
      Nat.mod_lt _ (by rw [hlen]; omega)
    rw [List.getD_eq_getElem _ _ hmod]
    exact List.getElem_mem hmod
  · intro h
    unfold getCategoryColor
    rw [hlen, h]

/-- Witness for C8 at concrete labels: "Misc" and "-" share hash residue 0,
hence the same palette colour. -/
theorem category_color_deterministic_witness :
    getCategoryColor "Misc" = getCategoryColor "-" :=
  (category_color_deterministic "Misc" "-").2.2.1 (by decide)

/-- C9: organize always completes under per-tab failure.  When every
per-tab analysis fails (thrown and absorbed, or resolved as an error
result), every eligible tab still receives its fallback label — the
URL-host-derived label for broken/loading tabs, "Misc" otherwise — and
appears in a grouping request bearing that label, and the run returns
successfully rather than throwing. -/
theorem organize_absorbs_failures (tabs : List Tab) (env : Nat → ModelCall)
    (hfail : ∀ t ∈ tabs, CallFails (env t.id)) :
    (∀ t ∈ tabs, ∃ g ∈ groupTabsByCategory (analyzeTabs env tabs),
        g.1 = fallbackLabel t ∧ t.id ∈ g.2) ∧
    (∀ (prev : Option Snapshot) (now : Nat)
        (stq : Except String (List Tab))
        (sgq : Except String (List (Int × GroupInfo)))
        (allTabs : List Tab),
      organizeEligible allTabs = tabs → ¬ tabs.length = 0 →
      (organizeByContent prev now stq sgq (.ok allTabs) env).2
        = .ok (groupTabsByCategory (analyzeTabs env tabs))) := by
  constructor
  · intro t ht
    have hcat := categorizeTab_of_fails env t (hfail t ht)
    have hmem : (t.id, categorizeTab env t) ∈ analyzeTabs env tabs :=
      List.mem_map_of_mem (fun t => (t.id, categorizeTab env t)) ht
    obtain ⟨g, hg, h1, h2⟩ := exists_group_of_mem _ t.id _ hmem
    exact ⟨g, hg, by rw [h1, hcat], h2⟩
  · intro prev now stq sgq allTabs helig hne
    unfold organizeByContent
    simp only [helig]
    rw [if_neg hne]

/-- Concrete broken tab (error title) used by the C9 witness: its fallback
label is the capitalized first DNS label "News" of its host. -/
def brokenTab : Tab :=
  { id := 7, index := 1, url := "https://www.news.example.org/x",
    title := "ERR_CONNECTION", pinned := false, groupId := -1, status := "complete" }

/-- Analysis environment in which every call fails with a timeout result. -/
def allFailEnv : Nat → ModelCall :=
  fun _ => .resolved ⟨"Misc", some "Analysis timeout"⟩

/-- Witness for C9 at a concrete run: with every analysis failing, the
broken tab ends in a grouping request labelled with its URL-host fallback. -/
theorem organize_absorbs_failures_witness :
    ∃ g ∈ groupTabsByCategory (analyzeTabs allFailEnv [brokenTab, sampleTab]),
      g.1 = fallbackLabel brokenTab ∧ brokenTab.id ∈ g.2 :=
  (organize_absorbs_failures [brokenTab, sampleTab] allFailEnv
    (fun _ _ => Or.inr ⟨"Analysis timeout", rfl⟩)).1 brokenTab (by decide)

theorem sortByProp_save_indep (prop : SortProp) (prev prev' : Option Snapshot)
    (now now' : Nat) (e : String)
    (gq : Except String (List (Int × GroupInfo)))
    (sortQ : Except String (List Tab)) (groupsQ : Except String (List TabGroup)) :
    sortByProp prop prev now ⟨.error e, gq, sortQ, groupsQ⟩
      = (prev, (sortByProp prop prev' now' ⟨.ok [], .ok [], sortQ, groupsQ⟩).2) := by
  unfold sortByProp
  cases sortQ with
  | error e2 => rfl
  | ok raw =>
    cases hany : (sorterFilter raw).any (fun t => !(t.groupId == -1)) with
    | true =>
      simp only [hany]
      cases groupsQ <;> rfl
    | false =>
      simp only [hany]
      rfl

theorem organize_save_indep (prev prev' : Option Snapshot) (now now' : Nat)
    (e : String) (gq : Except String (List (Int × GroupInfo)))
    (tabsQ : Except String (List Tab)) (env : Nat → ModelCall) :
    organizeByContent prev now (.error e) gq tabsQ env
      = (prev, (organizeByContent prev' now' (.ok []) (.ok []) tabsQ env).2) := by
  unfold organizeByContent
  cases tabsQ with
  | error e2 => rfl
  | ok tabs =>
    by_cases h : (organizeEligible tabs).length = 0
    · simp only [h, if_true]
      rfl
    · simp only [h, if_false]
      rfl

/-- C10 (implicit): a failed snapshot capture never aborts the requesting
operation.  `saveCurrentState` absorbs every query failure and returns
`false` while leaving any previously held snapshot in place; the sorts and
the organize run then proceed exactly as they would after a successful
capture (their outcome does not depend on the capture at all); and a later
undo therefore restores the older retained checkpoint. -/
theorem failed_capture_nonblocking (prev prev' : Option Snapshot)
    (now now' : Nat) (e : String) (tq : Except String (List Tab))
    (gq : Except String (List (Int × GroupInfo)))
    (sortQ : Except String (List Tab)) (groupsQ : Except String (List TabGroup))
    (tabsQ : Except String (List Tab)) (env : Nat → ModelCall)
    (renv : RestoreEnv) :
    ((∃ m, tq = .error m) ∨ (∃ m, gq = .error m) →
      saveCurrentState prev now tq gq = (prev, false)) ∧
    sortByTitle prev now ⟨.error e, gq, sortQ, groupsQ⟩
      = (prev, (sortByTitle prev' now' ⟨.ok [], .ok [], sortQ, groupsQ⟩).2) ∧
    sortByUrl prev now ⟨.error e, gq, sortQ, groupsQ⟩
      = (prev, (sortByUrl prev' now' ⟨.ok [], .ok [], sortQ, groupsQ⟩).2) ∧
    organizeByContent prev now (.error e) gq tabsQ env
      = (prev, (organizeByContent prev' now' (.ok []) (.ok []) tabsQ env).2) ∧
    restorePreviousState (sortByTitle prev now ⟨.error e, gq, sortQ, groupsQ⟩).1 renv
      = restorePreviousState prev renv := by
  have hsort := sortByProp_save_indep .title prev prev' now now' e gq sortQ groupsQ
  refine ⟨?_, hsort, sortByProp_save_indep .url prev prev' now now' e gq sortQ groupsQ,
    organize_save_indep prev prev' now now' e gq tabsQ env, ?_⟩
  · intro h
    rcases h with ⟨m, rfl⟩ | ⟨m, hg⟩
    · rfl
    · cases tq with
      | error e2 => rfl
      | ok tabs =>
        rw [hg]
        rfl
  · show restorePreviousState (sortByTitle prev now ⟨.error e, gq, sortQ, groupsQ⟩).1 renv = _
    rw [show sortByTitle prev now ⟨.error e, gq, sortQ, groupsQ⟩
      = (prev, (sortByTitle prev' now' ⟨.ok [], .ok [], sortQ, groupsQ⟩).2) from hsort]

/-- Witness for C10 at a concrete state: a capture whose tab query rejects
leaves the held snapshot in place and reports `false`. -/
theorem failed_capture_nonblocking_witness :
    saveCurrentState (some sampleSnap) 3 (.error "boom") (.ok []) = (some sampleSnap, false) :=
  (failed_capture_nonblocking (some sampleSnap) none 3 0 "boom" (.error "boom")
    (.ok []) (.ok []) (.ok []) (.ok []) allFailEnv ⟨.ok [], .ok ()⟩).1
    (Or.inl ⟨"boom", rfl⟩)

end TabGenius
